import Mathlib

/-!
Shallow embedding of the ethtool-exporter transceiver core
(src/module-eeprom.go and src/ethtool-exporter.go).

Modelling conventions:
* Machine integers (uint32, int) are modelled as `Nat`; bytes returned by the
  device are reduced `% 256` at the read boundary (the hardware returns bytes).
* Go maps (`map[string]string`, the module cache) are modelled as association
  lists with replace-or-append assignment; map reads use `List.lookup`.
* Fallible Go code returns `Except GoErr _`; a Go runtime panic (slice index
  out of range, invalid eeprom definition) is the distinguished error
  `GoErr.fault`, kept separate from ordinary `error` returns (`GoErr.msg`).
* `float64` arithmetic is modelled exactly over `ℚ`; the transcendental
  `math.Log10` is an abstract parameter `lg : ℚ → ℚ` threaded through the
  diagnostic decoder, so theorems hold for every interpretation of log10.
* The ioctl transport is modelled as always answering with the module's EEPROM
  bytes; device reads are additionally traced as `(offset, length)` pairs so
  that read-coalescing and cache claims about "number of device reads" can be
  stated.  The global `moduleCache` is threaded explicitly through `ModuleInfo`.
-/

/-- Errors produced by the embedded Go code: `msg` is an ordinary Go `error`
value, `fault` marks a Go runtime panic (e.g. slice bounds out of range). -/
inductive GoErr where
  | msg (s : String)
  | fault
deriving DecidableEq

abbrev Tags := List (String × String)

abbrev Cache := List (String × Tags)

/-- Go map assignment `m[k] = v` on an association list: replace the binding
if the key is present, otherwise append it (so list order is insertion order). -/
def assocSet {β : Type} : List (String × β) → String → β → List (String × β)
  | [], k, v => [(k, v)]
  | (k', v') :: rest, k, v =>
    if k' == k then (k, v) :: rest else (k', v') :: assocSet rest k v

-- Constants from module-eeprom.go.

def TXR_MI_ALLOW_CACHE : Nat := 0x7FFF

def TXR_MI_ALL : Nat := 0x3FFF

def TXR_MI_VENDOR : Nat := 1

def TXR_MI_OUI : Nat := 2

def TXR_MI_PRODUCT : Nat := 4

def TXR_MI_REVISION : Nat := 8

def TXR_MI_WAVELEN : Nat := 16

def TXR_MI_SERIAL : Nat := 32

def TXR_MI_DATE : Nat := 64

def ETH_MODULE_SFF_8472 : Nat := 0x2

def ETH_MODULE_SFF_8472_LEN : Nat := 512

def GAP_MERGE : Nat := 4

def infty : Nat := 0xffff

/-- Go's `a &^ b` (AND NOT) on naturals: clearing the common bits of `a`.
Since `a &&& b` is a sub-mask of `a`, this equals `a - (a &&& b)`. -/
def landNot (a b : Nat) : Nat := a - (a &&& b)

/-- A module handle (`EthToolModule`): module class code, reported EEPROM
length, and the EEPROM contents the device answers reads from.  The interface
name is omitted: it is only used to address the ioctl. -/
structure EthToolModule where
  tpe : Nat
  eeprom_len : Nat
  eeprom : Nat → Nat

/-- Bytes the device returns for a read of `len` bytes at `offset`. -/
def readBytes (ee : Nat → Nat) (offset len : Nat) : List Nat :=
  (List.range len).map (fun i => ee (offset + i) % 256)

/-- `EthToolModule.Read`: bounds checks and clamping exactly as in the Go
source, returning the bytes together with the trace of ioctl reads issued
(`[]` when the early `offset == eeprom_len` return fires, one entry
otherwise). -/
def EthToolModule.Read (e : EthToolModule) (offset len : Nat) :
    Except GoErr (List Nat × List (Nat × Nat)) :=
  if e.eeprom_len < 1 then .error (.msg "ethtool: No EEPROM to read.")
  else if offset > e.eeprom_len then .error (.msg "ethtool: Offset out of bounds.")
  else if offset = e.eeprom_len then .ok ([], [])
  else
    let len2 := if e.eeprom_len - offset < len then e.eeprom_len - offset else len
    .ok (readBytes e.eeprom offset len2, [(offset, len2)])

-- Diagnostic decoder (TxrDiag).

def txr_MULT_C : ℚ := 1/256

def txr_MULT_V : ℚ := 1/10000

def txr_MULT_mA : ℚ := 1/500

def txr_MULT_mW : ℚ := 1/10000

/-- The transceiver diagnostics record; `float64` fields modelled as `ℚ`. -/
structure TranscieverDiagnostics where
  temperature_C : ℚ
  voltage_V : ℚ
  bias_mA : ℚ
  transmit_mW : ℚ
  receive_mW : ℚ
  transmit_dBm : ℚ
  receive_dBm : ℚ
deriving DecidableEq

/-- Go slice expression `buf[lo:hi]` on a slice of length `buf.length` and
capacity `cap`: legal when `lo ≤ hi ≤ cap` (Go bounds re-slicing by the
capacity, not the length).  Indices past the slice's length read the backing
array, which for every slice produced by `Read` is the zero-initialized
`ethtoolEeprom.data` buffer, so they yield 0.  `none` models the runtime
bounds panic. -/
def goSlice (buf : List Nat) (cap lo hi : Nat) : Option (List Nat) :=
  if lo ≤ hi ∧ hi ≤ cap then
    some ((List.range (hi - lo)).map (fun i => buf.getD (lo + i) 0))
  else none

/-- The capacity of the byte slice a successful `Read` returned, recovered
from its ioctl trace: the early `offset == eeprom_len` branch returns the nil
slice (capacity 0) and issues no ioctl, while every other success returns
`eeprom.data[:len]`, a slice of the 512-byte `ethtoolEeprom.data` array whose
capacity is `ETH_MODULE_SFF_8472_LEN` whatever the clamped length. -/
def readCap (reads : List (Nat × Nat)) : Nat :=
  if reads.isEmpty then 0 else ETH_MODULE_SFF_8472_LEN

/-- `binary.BigEndian.Uint16(data[2*i : 2*i+2])` on a slice of capacity `cap`;
`none` models the slice bounds panic. -/
def uint16BE (data : List Nat) (cap : Nat) (i : Nat) : Option Nat :=
  match goSlice data cap (2 * i) (2 * i + 2) with
  | some [hi, lo] => some (256 * hi + lo)
  | _ => none

/-- `TxrDiag`: reads 10 bytes of the diagnostic page at offset 0x160 and
decodes five big-endian 16-bit words.  `lg` is the abstract `math.Log10`. -/
def TxrDiag (lg : ℚ → ℚ) (e : EthToolModule) : Except GoErr TranscieverDiagnostics :=
  if e.tpe ≠ ETH_MODULE_SFF_8472 then
    .error (.msg ("Unsupported module type: " ++ toString e.tpe))
  else
    match e.Read 0x160 10 with
    | .error er => .error er
    | .ok (data, rds) =>
      match uint16BE data (readCap rds) 0, uint16BE data (readCap rds) 1,
            uint16BE data (readCap rds) 2, uint16BE data (readCap rds) 3,
            uint16BE data (readCap rds) 4 with
      | some w0, some w1, some w2, some w3, some w4 =>
        let tx := (w3 : ℚ) * txr_MULT_mW
        let rx := (w4 : ℚ) * txr_MULT_mW
        .ok ⟨(w0 : ℚ) * txr_MULT_C, (w1 : ℚ) * txr_MULT_V, (w2 : ℚ) * txr_MULT_mA,
             tx, rx, lg tx * 10, lg rx * 10⟩
      | _, _, _, _, _ => .error .fault

-- Static EEPROM field registry and decoders.

def txr_DECODE_STRING : Nat := 0

def txr_DECODE_INT : Nat := 1

def txr_DECODE_OUI : Nat := 2

/-- One entry of the static field table: name, offset, length, flag, decoder. -/
structure eepromEntryDef where
  name : String
  offset : Nat
  length : Nat
  flag : Nat
  decoder : Nat
deriving DecidableEq

/-- `fromLatin1`: bytes to string, keeping only up to the last byte that is
neither NUL nor space. -/
def fromLatin1 (bytes : List Nat) : String :=
  let lastchar := (List.range bytes.length).foldl
    (fun acc i => if bytes.getD i 0 ≠ 0 ∧ bytes.getD i 0 ≠ 0x20 then i + 1 else acc) 0
  String.mk ((bytes.take lastchar).map (fun b => Char.ofNat b))

/-- `validSerial` as written in the Go source.  Note the third alphanumeric
range test is `r <= 'a' && r >= 'z'` exactly as in the source (which is
unsatisfiable); see the claim-1 theorems. -/
def validSerial (sn : String) : Bool :=
  let c := sn.data.foldl
    (fun (c : Nat × Nat) r =>
      if r < ' ' ∨ '~' < r then (c.1 + 1, c.2)
      else if ('0' ≤ r ∧ r ≤ '9') ∨ ('A' ≤ r ∧ r ≤ 'Z') ∨ (r ≤ 'a' ∧ 'z' ≤ r) then
        (c.1, c.2 + 1)
      else c)
    (0, 0)
  decide (3 < c.2) && decide (c.1 = 0)

/-- The static, offset-sorted field table, sentinel `--last--` included. -/
def txrEepromStatic : List eepromEntryDef :=
  [⟨"vendor", 0x14, 16, TXR_MI_VENDOR, txr_DECODE_STRING⟩,
   ⟨"oui", 0x25, 3, TXR_MI_OUI, txr_DECODE_OUI⟩,
   ⟨"product", 0x28, 16, TXR_MI_PRODUCT, txr_DECODE_STRING⟩,
   ⟨"revision", 0x38, 4, TXR_MI_REVISION, txr_DECODE_STRING⟩,
   ⟨"wavelen", 0x3c, 2, TXR_MI_WAVELEN, txr_DECODE_INT⟩,
   ⟨"serial", 0x44, 16, TXR_MI_SERIAL, txr_DECODE_STRING⟩,
   ⟨"mfgdate", 0x54, 8, TXR_MI_WAVELEN, txr_DECODE_STRING⟩,
   ⟨"--last--", infty, 0, 0, 0⟩]

/-- `GetTxrInfoFlags`: fold the requested names into a flag bitmask. -/
def GetTxrInfoFlags (strs : List String) : Except GoErr Nat :=
  strs.foldlM
    (fun ret info =>
      if info = "ALL" then .ok (ret ||| TXR_MI_ALL)
      else if info = "CACHE" then .ok (ret ||| TXR_MI_ALLOW_CACHE)
      else
        let hit := txrEepromStatic.foldl
          (fun (p : Bool × Nat) d =>
            if info == d.name then (true, p.2 ||| d.flag) else p)
          (false, ret)
        if hit.1 then .ok hit.2
        else .error (.msg ("Unknown entry " ++ info)))
    0

/-- Two-digit lowercase hex of a byte (the `%02x` verb for values < 256). -/
def hex2 (b : Nat) : String :=
  let hexDigit := fun n => if n < 10 then Char.ofNat (48 + n) else Char.ofNat (87 + n)
  String.mk [hexDigit (b / 16 % 16), hexDigit (b % 16)]

/-- `decodeStatic`: decode a field's bytes; `none` models the panic on an
invalid decoder code. -/
def decodeStatic (buf : List Nat) (decoder : Nat) : Option String :=
  if decoder = txr_DECODE_STRING then some (fromLatin1 buf)
  else if decoder = txr_DECODE_OUI then
    some (hex2 (buf.getD 0 0) ++ ":" ++ hex2 (buf.getD 1 0) ++ ":" ++ hex2 (buf.getD 2 0))
  else if decoder = txr_DECODE_INT then
    some (toString (buf.foldl (fun acc d => 256 * acc + d) 0))
  else none

/-- One queued field in the pending read span (`bufferInfo`): the field's
definition and its position relative to the span start. -/
structure MiQuery where
  qdef : eepromEntryDef
  buf_pos : Nat

/-- Decode every queued field from the span's buffer (of capacity `cap`) into
the result map; `none` models a Go panic (slice bounds or invalid decoder). -/
def miDecodeAll (buf : List Nat) (cap : Nat) : List MiQuery → Tags → Option Tags
  | [], ret => some ret
  | q :: rest, ret =>
    match goSlice buf cap q.buf_pos (q.buf_pos + q.qdef.length) with
    | none => none
    | some piece =>
      match decodeStatic piece q.qdef.decoder with
      | none => none
      | some v => miDecodeAll buf cap rest (assocSet ret q.qdef.name v)

/-- The loop body of `moduleInfo`: walk the field table, coalescing selected
fields into read spans.  State: result map, trace of issued reads, pending
query list, span start and span end.  A pending span is flushed (read and
decoded) when the next entry's offset exceeds the span end by more than
`GAP_MERGE`; the sentinel entry at offset `infty` forces the final flush. -/
def miGo (e : EthToolModule) (flags : Nat) :
    List eepromEntryDef → Tags → List (Nat × Nat) → List MiQuery → Nat → Nat →
    Except GoErr (Tags × List (Nat × Nat))
  | [], ret, reads, _, _, _ => .ok (ret, reads)
  | qdef :: rest, ret, reads, query, qstart, qend =>
    if 0 < query.length ∧ qend < qdef.offset - GAP_MERGE then
      match e.Read qstart (qend - qstart) with
      | .error er => .error er
      | .ok (buf, rds) =>
        match miDecodeAll buf (readCap rds) query ret with
        | none => .error .fault
        | some ret2 =>
          if qdef.flag &&& flags ≠ 0 then
            miGo e flags rest ret2 (reads ++ rds) [⟨qdef, 0⟩] qdef.offset
              (qdef.offset + qdef.length)
          else
            miGo e flags rest ret2 (reads ++ rds) [] qstart qend
    else
      if qdef.flag &&& flags ≠ 0 then
        let qstart2 := if query.length = 0 then qdef.offset else qstart
        miGo e flags rest ret reads (query ++ [⟨qdef, qdef.offset - qstart2⟩]) qstart2
          (qdef.offset + qdef.length)
      else
        miGo e flags rest ret reads query qstart qend

/-- `moduleInfo`: decode the fields selected by `flags`, returning the tag map
and the trace of device reads issued. -/
def EthToolModule.moduleInfo (e : EthToolModule) (flags : Nat) :
    Except GoErr (Tags × List (Nat × Nat)) :=
  if e.tpe ≠ ETH_MODULE_SFF_8472 then
    .error (.msg ("Unsupported module type: " ++ toString e.tpe))
  else miGo e flags txrEepromStatic [] [] [] 0 0

/-- The store-and-return tail of `ModuleInfo` on the cache path: run the
remaining field reads, merge the serial back in, and cache a copy keyed by the
serial. -/
def moduleInfoStore (e : EthToolModule) (flags2 : Nat) (cache : Cache) (sn : String)
    (reads1 : List (Nat × Nat)) : Except GoErr (Tags × Cache × List (Nat × Nat)) :=
  match e.moduleInfo flags2 with
  | .error er => .error er
  | .ok (ret, reads2) =>
    let ret2 := assocSet ret "serial" sn
    .ok (ret2, assocSet cache sn ret2, reads1 ++ reads2)

/-- The serial-validation and cache-lookup step of `ModuleInfo`, entered with
the decoded serial `sn` and the reads issued so far: a validated cached serial
returns the cached tag set unchanged, anything else falls through to the
remaining reads with the serial flag cleared. -/
def cacheLookupStep (e : EthToolModule) (flags : Nat) (cache : Cache) (sn : String)
    (reads1 : List (Nat × Nat)) : Except GoErr (Tags × Cache × List (Nat × Nat)) :=
  if validSerial sn then
    match cache.lookup sn with
    | some ret => .ok (ret, cache, reads1)
    | none => moduleInfoStore e (landNot flags TXR_MI_SERIAL) cache sn reads1
  else moduleInfoStore e (landNot flags TXR_MI_SERIAL) cache sn reads1

/-- `ModuleInfo`: the cache-aware wrapper.  The global `moduleCache` is the
explicit `cache` argument and the updated cache is returned.  The cache path
is taken only when `flags` equals `TXR_MI_ALLOW_CACHE` exactly, as in the
source. -/
def ModuleInfo (e : EthToolModule) (flags : Nat) (cache : Cache) :
    Except GoErr (Tags × Cache × List (Nat × Nat)) :=
  if flags = TXR_MI_ALLOW_CACHE then
    match e.moduleInfo TXR_MI_SERIAL with
    | .error er => .error er
    | .ok (serialTags, reads1) =>
      match serialTags.lookup "serial" with
      | some sn => cacheLookupStep e flags cache sn reads1
      | none =>
        match e.moduleInfo flags with
        | .error er => .error er
        | .ok (ret, reads2) => .ok (ret, cache, reads1 ++ reads2)
  else
    match e.moduleInfo flags with
    | .error er => .error er
    | .ok (ret, reads) => .ok (ret, cache, reads)

-- Collection orchestrator (serial path) and emission, from ethtool-exporter.go.

/-- The per-interface record handed to the emitters. -/
structure CollectionRecord where
  iface : String
  err : Option GoErr
  tags : Tags
  diag : Option TranscieverDiagnostics

/-- The body of the `CollectIfacesSerially` loop for one interface:
open the module, fetch the tag set, fetch the diagnostics; on any failure keep
the error (tags stay as they were at the point of failure, diagnostics absent). -/
def collectOne (lg : ℚ → ℚ) (world : String → Except GoErr EthToolModule)
    (flags : Nat) (cache : Cache) (iface : String) : CollectionRecord × Cache :=
  match world iface with
  | .error er => (⟨iface, some er, [], none⟩, cache)
  | .ok m =>
    match ModuleInfo m flags cache with
    | .error er => (⟨iface, some er, [], none⟩, cache)
    | .ok (tags, cache2, _) =>
      match TxrDiag lg m with
      | .error er => (⟨iface, some er, tags, none⟩, cache2)
      | .ok d => (⟨iface, none, tags, some d⟩, cache2)

/-- `CollectIfacesSerially`: one record per interface, in list order, the
module cache threaded through. -/
def CollectIfacesSerially (lg : ℚ → ℚ) (world : String → Except GoErr EthToolModule)
    (flags : Nat) : List String → Cache → List CollectionRecord × Cache
  | [], cache => ([], cache)
  | i :: rest, cache =>
    match collectOne lg world flags cache i with
    | (r, cache2) =>
      match CollectIfacesSerially lg world flags rest cache2 with
      | (rs, cache3) => (r :: rs, cache3)

def transcieverFullLabels : List String :=
  ["iface", "error", "vendor", "revision", "product", "serial", "wavelen", "mfgdate"]

/-- The Go `error.Error()` text of an embedded error value. -/
def errText : GoErr → String
  | .msg s => s
  | .fault => "runtime panic"

/-- The three escaping passes of the line-protocol encoder, in source order:
quotes and backslashes (codepoints 92, 34, 39, 96) to a tilde, control and
space characters to backslash-space, comma and equals prefixed by a
backslash. -/
def escapeInflux (value : String) : String :=
  let pass1 := value.data.map
    (fun c => if c.toNat = 92 ∨ c.toNat = 34 ∨ c.toNat = 39 ∨ c.toNat = 96 then '~' else c)
  let pass2 := pass1.flatMap
    (fun c => if c.toNat ≤ 0x1F ∨ c.toNat = 0x7F ∨ c = ' ' then [Char.ofNat 92, ' '] else [c])
  let pass3 := pass2.flatMap
    (fun c => if c = ',' ∨ c = '=' then [Char.ofNat 92, c] else [c])
  String.mk pass3

/-- The comma-joined escaped tag list of `InfluxChan.Emit` (labels with empty
values are skipped). -/
def influxTags (iface : String) (err : Option GoErr) (tags : Tags) : String :=
  let tagList := transcieverFullLabels.foldl
    (fun acc label =>
      let value :=
        if label = "iface" then iface
        else if label = "error" then
          match err with
          | some e => errText e
          | none => ""
        else (tags.lookup label).getD ""
      if 0 < value.length then acc ++ [label ++ "=" ++ escapeInflux value] else acc)
    []
  String.intercalate "," tagList

/-- Fixed-point decimal rendering of a rational with `prec` digits: the exact
counterpart of the `%.Nf` verb (ties rounded up; Go's float64 formatting
differs only on exact ties, which the diagnostic scalings do not produce). -/
def fmtFixed (prec : Nat) (q : ℚ) : String :=
  let n : Int := (q * ((10 : ℚ) ^ prec) + 1/2).floor
  let m : Nat := n.natAbs
  let digits := toString (m % 10 ^ prec)
  let frac := String.mk (List.replicate (prec - digits.length) '0') ++ digits
  (if n < 0 then "-" else "") ++ toString (m / 10 ^ prec) ++ "." ++ frac

/-- `InfluxChan.Emit`: the single string sent to the line channel for one
record.  Note the trailing `"\n"` inside the failure format string, taken
verbatim from the source.  (With a nil error and nil metrics the Go code would
dereference a nil pointer; that combination is never produced by the
collector, and is mapped to the empty string here.) -/
def InfluxEmit (iface : String) (err : Option GoErr) (tags : Tags)
    (metrics : Option TranscieverDiagnostics) : String :=
  let tagStr := influxTags iface err tags
  match err with
  | none =>
    match metrics with
    | some m =>
      "ethtool" ++ "_transciever," ++ tagStr ++ " present=1i,temperature_C=" ++
        fmtFixed 2 m.temperature_C ++ ",voltage_V=" ++ fmtFixed 3 m.voltage_V ++
        ",bias_A=" ++ fmtFixed 6 (m.bias_mA * (1/1000)) ++ ",receive_power_dBm=" ++
        fmtFixed 2 m.receive_dBm ++ ",transmit_power_dBm=" ++ fmtFixed 2 m.transmit_dBm ++
        ",receive_power_W=" ++ fmtFixed 7 (m.receive_mW * (1/1000)) ++
        ",transmit_power_W=" ++ fmtFixed 7 (m.transmit_mW * (1/1000))
    | none => ""
  | some _ => "ethtool" ++ "_transciever," ++ tagStr ++ " present=0i\n"

/-- The `Influxdb` writer: each channel line is written as the line, a space,
the nanosecond timestamp, and a newline. -/
def influxWriteLine (nowi : Int) (line : String) : String :=
  line ++ " " ++ toString nowi ++ "\n"

/-- `Influxdb` over the serial collection path: the full text written for the
given interfaces (the concurrent partition dispatch is outside this model;
every partition runs this serial path). -/
def Influxdb (lg : ℚ → ℚ) (world : String → Except GoErr EthToolModule)
    (flags : Nat) (ifaces : List String) (cache : Cache) (nowi : Int) : String :=
  match CollectIfacesSerially lg world flags ifaces cache with
  | (recs, _) =>
    String.join (recs.map (fun r => influxWriteLine nowi (InfluxEmit r.iface r.err r.tags r.diag)))

-- Derived definitions and concrete fixtures used by the theorems.

/-- A concrete interpretation of `math.Log10`, used to instantiate theorems
that are otherwise universally quantified over the logarithm. -/
def log10Zero : ℚ → ℚ := fun _ => 0

/-- A supported module: class `ETH_MODULE_SFF_8472`, the canonical SFF-8472
EEPROM length, and the given EEPROM contents. -/
def sff8472 (ee : Nat → Nat) : EthToolModule :=
  ⟨ETH_MODULE_SFF_8472, ETH_MODULE_SFF_8472_LEN, ee⟩

/-- The serial value a serial-only `moduleInfo` query decodes on a supported
module with the given EEPROM contents ("" on error). -/
def serialOf (ee : Nat → Nat) : String :=
  match (sff8472 ee).moduleInfo TXR_MI_SERIAL with
  | .ok (t, _) => (t.lookup "serial").getD ""
  | .error _ => ""

/-- The table entries selected by a flag bitmask (the fields `moduleInfo`
decodes). -/
def selectedDefs (flags : Nat) : List eepromEntryDef :=
  txrEepromStatic.filter (fun d => d.flag &&& flags != 0)

/-- The device reads claim 4 predicts for a selection of exactly two fields:
one read spanning both when the second field starts within `GAP_MERGE` bytes
of the end of the first, two separate reads otherwise. -/
def expectedTwoFieldReads : List eepromEntryDef → List (Nat × Nat)
  | [a, b] =>
    if b.offset ≤ a.offset + a.length + GAP_MERGE then
      [(a.offset, b.offset + b.length - a.offset)]
    else [(a.offset, a.length), (b.offset, b.length)]
  | _ => []

/-- The key list of a `moduleInfo` result (empty for errors). -/
def keysOf : Except GoErr (Tags × List (Nat × Nat)) → List String
  | .ok (t, _) => t.map Prod.fst
  | .error _ => []

/-- The temperature of a diagnostic result (0 for errors). -/
def diagTemp : Except GoErr TranscieverDiagnostics → ℚ
  | .ok d => d.temperature_C
  | .error _ => 0

/-- The bias of a diagnostic result (0 for errors). -/
def diagBias : Except GoErr TranscieverDiagnostics → ℚ
  | .ok d => d.bias_mA
  | .error _ => 0

/-- The serial validity predicate as the specification words it: more than 3
alphanumeric characters (letters A-Z and a-z, digits 0-9) and no character
outside the printable ASCII range 0x20-0x7E. -/
def validSerialSpec (sn : String) : Bool :=
  decide (3 < (sn.data.filter (fun r =>
      decide (('0' ≤ r ∧ r ≤ '9') ∨ ('A' ≤ r ∧ r ≤ 'Z') ∨ ('a' ≤ r ∧ r ≤ 'z')))).length)
    && decide ((sn.data.filter (fun r => decide (r < ' ' ∨ '~' < r))).length = 0)

/-- EEPROM contents whose serial field holds "ABC1" (padded with spaces); all
other bytes are spaces. -/
def eeFixture (i : Nat) : Nat :=
  if 0x44 ≤ i ∧ i < 0x48 then [0x41, 0x42, 0x43, 0x31].getD (i - 0x44) 0 else 0x20

/-- EEPROM contents whose diagnostic page at 0x160 holds the worked example
bytes 27 09 80 79 0b 5d 14 ce 16 02; all other bytes are spaces. -/
def eeDiagFixture (i : Nat) : Nat :=
  if 0x160 ≤ i ∧ i < 0x16A then
    [0x27, 0x09, 0x80, 0x79, 0x0b, 0x5d, 0x14, 0xce, 0x16, 0x02].getD (i - 0x160) 0
  else 0x20

/-- A supported module with EEPROM filled with the byte 0x41. -/
def moduleA : EthToolModule := sff8472 (fun _ => 0x41)

/-- The module holding the worked diagnostic example. -/
def moduleDiag : EthToolModule := sff8472 eeDiagFixture

/-- A supported module that reports only 256 EEPROM bytes: identity fields are
readable but the diagnostic page at 0x160 is out of bounds. -/
def module256 : EthToolModule := ⟨ETH_MODULE_SFF_8472, 0x100, eeFixture⟩

/-- A supported module whose reported EEPROM length is exactly 0x160. -/
def module352 : EthToolModule := ⟨ETH_MODULE_SFF_8472, 0x160, fun _ => 0⟩

/-- A one-interface world: "eth0" carries `module256`, everything else fails
to open. -/
def worldEth0 : String → Except GoErr EthToolModule :=
  fun i => if i = "eth0" then .ok module256 else .error (.msg "no such interface")

/-- A cache that already holds tags under the serial "ABC1". -/
def cacheABC1 : Cache := [("ABC1", [("vendor", "X")])]

/-- A module with no EEPROM. -/
def moduleEmpty : EthToolModule := ⟨ETH_MODULE_SFF_8472, 0, fun _ => 0⟩

/-- A module with a 10-byte EEPROM holding the byte i at offset i. -/
def module10 : EthToolModule := ⟨ETH_MODULE_SFF_8472, 10, fun i => i⟩

-- Theorems.

/-- C1: the claim says the validator accepts any serial with more than 3
alphanumeric characters (A-Z, a-z, 0-9) and no byte outside printable ASCII,
whatever the letter case.  The source's lowercase range test is
`r <= 'a' && r >= 'z'`, which no character satisfies, so "aaaa" (accepted by
the claim and by the spec-side predicate) is rejected by the code, while
"AAAA" is accepted: the comparison operators of the lowercase test are
inverted in the code. -/
theorem validSerial_lowercase_divergence :
    validSerialSpec "aaaa" = true ∧ validSerial "aaaa" = false ∧
      validSerial "AAAA" = true ∧ validSerial "ABC123" = true := by
  decide

/-- C2: building a flag set from a single field name succeeds for every known
name, and `moduleInfo` returns exactly that field for vendor, oui, product,
revision and serial.  For "wavelen" and "mfgdate" the claim fails: the table
entry for mfgdate carries `TXR_MI_WAVELEN` (16) instead of the defined-but-
unused `TXR_MI_DATE` (64), so either name selects both fields and the decoded
key set is ["wavelen", "mfgdate"], not a singleton. -/
theorem mfgdate_flag_divergence :
    GetTxrInfoFlags ["vendor"] = .ok 1 ∧ keysOf (moduleA.moduleInfo 1) = ["vendor"] ∧
    GetTxrInfoFlags ["oui"] = .ok 2 ∧ keysOf (moduleA.moduleInfo 2) = ["oui"] ∧
    GetTxrInfoFlags ["product"] = .ok 4 ∧ keysOf (moduleA.moduleInfo 4) = ["product"] ∧
    GetTxrInfoFlags ["revision"] = .ok 8 ∧ keysOf (moduleA.moduleInfo 8) = ["revision"] ∧
    GetTxrInfoFlags ["serial"] = .ok 32 ∧ keysOf (moduleA.moduleInfo 32) = ["serial"] ∧
    GetTxrInfoFlags ["wavelen"] = .ok 16 ∧ GetTxrInfoFlags ["mfgdate"] = .ok 16 ∧
    keysOf (moduleA.moduleInfo 16) = ["wavelen", "mfgdate"] ∧
    TXR_MI_DATE = 64 ∧ (["wavelen", "mfgdate"] ≠ ["mfgdate"]) := by
  exact ⟨rfl, rfl, rfl, rfl, rfl, rfl, rfl, rfl, rfl, rfl, rfl, rfl, rfl, rfl, by decide⟩

/-- Selecting a flag bit below 64 only depends on the low six bits of the
bitmask. -/
theorem land_lt64_mod (f x : Nat) (hf : f < 64) : f &&& x = f &&& (x % 64) := by
  apply Nat.eq_of_testBit_eq
  intro i
  rw [Nat.testBit_land, Nat.testBit_land]
  by_cases hi : i < 6
  · have hx : (x % 64).testBit i = x.testBit i := by
      rw [show (64 : Nat) = 2 ^ 6 by norm_num, Nat.testBit_mod_two_pow]
      simp [hi]
    rw [hx]
  · have h2 : (64 : Nat) ≤ 2 ^ i := by
      have h3 : (2 : Nat) ^ 6 ≤ 2 ^ i := Nat.pow_le_pow_right (by norm_num) (by omega)
      norm_num at h3
      exact h3
    have hf6 : f.testBit i = false := Nat.testBit_eq_false_of_lt (lt_of_lt_of_le hf h2)
    simp [hf6]

/-- Every flag in the static field table is below 64. -/
theorem txrEepromStatic_flag_lt : ∀ d ∈ txrEepromStatic, d.flag < 64 := by decide

/-- The table walk only inspects the low six bits of the flag bitmask. -/
theorem miGo_land_mod (e : EthToolModule) (flags : Nat) :
    ∀ (entries : List eepromEntryDef), (∀ d ∈ entries, d.flag < 64) →
      ∀ ret reads query qstart qend,
        miGo e flags entries ret reads query qstart qend =
          miGo e (flags % 64) entries ret reads query qstart qend := by
  intro entries
  induction entries with
  | nil => intro _ ret reads query qstart qend; rfl
  | cons d rest ih =>
    intro hall ret reads query qstart qend
    have hd : d.flag &&& flags = d.flag &&& (flags % 64) :=
      land_lt64_mod _ _ (hall d (List.mem_cons_self _ _))
    have hr : ∀ d2 ∈ rest, d2.flag < 64 := fun d2 h2 => hall d2 (List.mem_cons_of_mem _ h2)
    simp only [miGo]
    rw [hd]
    split
    · cases hR : e.Read qstart (qend - qstart) with
      | error er => rfl
      | ok p =>
        obtain ⟨buf, rds⟩ := p
        dsimp only
        cases hD : miDecodeAll buf (readCap rds) query ret with
        | none => rfl
        | some ret2 =>
          dsimp only
          split
          · exact ih hr _ _ _ _ _
          · exact ih hr _ _ _ _ _
    · split
      · exact ih hr _ _ _ _ _
      · exact ih hr _ _ _ _ _

/-- `moduleInfo` only inspects the low six bits of the flag bitmask. -/
theorem moduleInfo_land_mod (e : EthToolModule) (flags : Nat) :
    e.moduleInfo flags = e.moduleInfo (flags % 64) := by
  unfold EthToolModule.moduleInfo
  split
  · rfl
  · exact miGo_land_mod e flags txrEepromStatic txrEepromStatic_flag_lt [] [] [] 0 0

/-- Field selection only inspects the low six bits of the flag bitmask. -/
theorem selectedDefs_land_mod (flags : Nat) :
    selectedDefs flags = selectedDefs (flags % 64) := by
  unfold selectedDefs
  apply List.filter_congr
  intro d hd
  have hflag : d.flag < 64 := txrEepromStatic_flag_lt d hd
  rw [land_lt64_mod d.flag flags hflag]

/-- C4: for every flag bitmask that selects exactly two fields of the table,
`moduleInfo` on a supported module issues exactly the reads predicted by the
gap-merge rule: one read spanning both fields when the second field's offset
is at most `GAP_MERGE` bytes past the end of the first, and two reads (one per
field) otherwise. -/
theorem moduleInfo_two_field_coalescing (flags : Nat) (ee : Nat → Nat)
    (h : (selectedDefs flags).length = 2) :
    ∃ t, (sff8472 ee).moduleInfo flags =
      .ok (t, expectedTwoFieldReads (selectedDefs flags)) := by
  rw [selectedDefs_land_mod flags] at h ⊢
  rw [moduleInfo_land_mod]
  have h64 : flags % 64 < 64 := Nat.mod_lt _ (by norm_num)
  generalize hm : flags % 64 = m at h h64 ⊢
  interval_cases m <;>
    first
      | exact absurd h (by decide)
      | exact ⟨_, rfl⟩

/-- Witness for claim 4: selecting revision (offset 0x38, length 4) and serial
(offset 0x44), which are 8 bytes apart, yields two device reads. -/
theorem moduleInfo_two_field_coalescing_witness :
    (selectedDefs 40).length = 2 ∧
      ∃ t, (sff8472 (fun _ => 0x41)).moduleInfo 40 =
        .ok (t, expectedTwoFieldReads (selectedDefs 40)) :=
  ⟨by decide, moduleInfo_two_field_coalescing 40 (fun _ => 0x41) (by decide)⟩

/-- C9: the EEPROM range read fails on a zero-length EEPROM, fails when the
offset is beyond the EEPROM, returns an empty result without error when the
offset equals the EEPROM length, and otherwise clamps the length to at most
`eeprom_len - offset` and issues exactly one device-control read returning
exactly that read's bytes. -/
theorem read_range_spec (e : EthToolModule) (offset len : Nat) :
    (e.eeprom_len = 0 → e.Read offset len = .error (.msg "ethtool: No EEPROM to read.")) ∧
    (0 < e.eeprom_len → e.eeprom_len < offset →
      e.Read offset len = .error (.msg "ethtool: Offset out of bounds.")) ∧
    (0 < e.eeprom_len → offset = e.eeprom_len → e.Read offset len = .ok ([], [])) ∧
    (0 < e.eeprom_len → offset < e.eeprom_len →
      e.Read offset len =
        .ok (readBytes e.eeprom offset (min len (e.eeprom_len - offset)),
             [(offset, min len (e.eeprom_len - offset))]) ∧
        min len (e.eeprom_len - offset) ≤ e.eeprom_len - offset) := by
  refine ⟨?_, ?_, ?_, ?_⟩
  · intro h0
    unfold EthToolModule.Read
    rw [if_pos (by omega)]
  · intro hpos hlt
    unfold EthToolModule.Read
    rw [if_neg (by omega), if_pos (by omega)]
  · intro hpos heq
    unfold EthToolModule.Read
    rw [if_neg (by omega), if_neg (by omega), if_pos heq]
  · intro hpos hlt
    unfold EthToolModule.Read
    rw [if_neg (by omega), if_neg (by omega), if_neg (by omega)]
    have hmin : (if e.eeprom_len - offset < len then e.eeprom_len - offset else len) =
        min len (e.eeprom_len - offset) := by
      split <;> omega
    refine ⟨by simp only [hmin], Nat.min_le_right _ _⟩

/-- Witness for claim 9: the four branches at concrete modules and ranges. -/
theorem read_range_spec_witness :
    moduleEmpty.Read 3 5 = .error (.msg "ethtool: No EEPROM to read.") ∧
    module10.Read 11 5 = .error (.msg "ethtool: Offset out of bounds.") ∧
    module10.Read 10 5 = .ok ([], []) ∧
    (module10.Read 2 100 =
        .ok (readBytes module10.eeprom 2 (min 100 (module10.eeprom_len - 2)),
             [(2, min 100 (module10.eeprom_len - 2))]) ∧
      min 100 (module10.eeprom_len - 2) ≤ module10.eeprom_len - 2) :=
  ⟨(read_range_spec moduleEmpty 3 5).1 rfl,
   (read_range_spec module10 11 5).2.1 (by decide) (by decide),
   (read_range_spec module10 10 5).2.2.1 (by decide) rfl,
   (read_range_spec module10 2 100).2.2.2 (by decide) (by decide)⟩


/-- C3: on a supported module whose EEPROM decodes to a validating serial,
two successive `ModuleInfo` calls with the allow-cache flag value return the
same tag set and thread the same cache, and the second call issues strictly
fewer device reads than the first: exactly one read, namely the serial field's
span (offset 0x44, length 0x10), against three reads on the first call. -/
theorem moduleInfo_cache_idempotent (ee : Nat → Nat)
    (hv : validSerial (serialOf ee) = true) :
    ∃ t c, ModuleInfo (sff8472 ee) TXR_MI_ALLOW_CACHE [] =
        .ok (t, c, [(0x44, 0x10), (0x14, 0x2a), (0x54, 8)]) ∧
      ModuleInfo (sff8472 ee) TXR_MI_ALLOW_CACHE c = .ok (t, c, [(0x44, 0x10)]) ∧
      ([(0x44, 0x10)] : List (Nat × Nat)).length <
        ([(0x44, 0x10), (0x14, 0x2a), (0x54, 8)] : List (Nat × Nat)).length := by
  obtain ⟨sn, hsn⟩ : ∃ sn, (sff8472 ee).moduleInfo TXR_MI_SERIAL =
      .ok ([("serial", sn)], [(0x44, 0x10)]) := ⟨_, rfl⟩
  have hsOf : serialOf ee = sn := by
    unfold serialOf
    rw [hsn]
    rfl
  rw [hsOf] at hv
  obtain ⟨t2, h2⟩ :
      ∃ t2, (sff8472 ee).moduleInfo (landNot TXR_MI_ALLOW_CACHE TXR_MI_SERIAL) =
        .ok (t2, [(0x14, 0x2a), (0x54, 8)]) := ⟨_, rfl⟩
  have hM0 : ∀ cache : Cache, ModuleInfo (sff8472 ee) TXR_MI_ALLOW_CACHE cache =
      cacheLookupStep (sff8472 ee) TXR_MI_ALLOW_CACHE cache sn [(0x44, 0x10)] := by
    intro cache
    unfold ModuleInfo
    rw [if_pos rfl, hsn]
    rfl
  refine ⟨assocSet t2 "serial" sn, [(sn, assocSet t2 "serial" sn)], ?_, ?_, by decide⟩
  · rw [hM0]
    unfold cacheLookupStep
    rw [if_pos hv]
    dsimp only [List.lookup]
    unfold moduleInfoStore
    rw [h2]
    rfl
  · rw [hM0]
    unfold cacheLookupStep
    rw [if_pos hv]
    have hlk : ([(sn, assocSet t2 "serial" sn)] : Cache).lookup sn =
        some (assocSet t2 "serial" sn) := by
      simp [List.lookup]
    rw [hlk]

/-- Witness for claim 3: the EEPROM fixture whose serial decodes to "ABC1". -/
theorem moduleInfo_cache_idempotent_witness :
    validSerial (serialOf eeFixture) = true ∧
      (∃ t c, ModuleInfo (sff8472 eeFixture) TXR_MI_ALLOW_CACHE [] =
          .ok (t, c, [(0x44, 0x10), (0x14, 0x2a), (0x54, 8)]) ∧
        ModuleInfo (sff8472 eeFixture) TXR_MI_ALLOW_CACHE c = .ok (t, c, [(0x44, 0x10)]) ∧
        ([(0x44, 0x10)] : List (Nat × Nat)).length <
          ([(0x44, 0x10), (0x14, 0x2a), (0x54, 8)] : List (Nat × Nat)).length) :=
  ⟨by decide, moduleInfo_cache_idempotent eeFixture (by decide)⟩

/-- C6 counterexample: the flag value 0x4000 is exactly the allow-cache bit
(the bit of `TXR_MI_ALLOW_CACHE` outside `TXR_MI_ALL`), the module's serial
decodes to "ABC1" which validates and is a key of the cache — yet `ModuleInfo`
issues no device read at all (so no serial-first read), ignores the cache and
returns an empty tag set, because the source compares `flags` with
`TXR_MI_ALLOW_CACHE` for equality instead of testing the bit. -/
theorem moduleInfo_allow_cache_bit_cex :
    0x4000 &&& TXR_MI_ALL = 0 ∧ 0x4000 &&& TXR_MI_ALLOW_CACHE = 0x4000 ∧
    validSerial (serialOf eeFixture) = true ∧
    cacheABC1.lookup (serialOf eeFixture) = some [("vendor", "X")] ∧
    ModuleInfo (sff8472 eeFixture) 0x4000 cacheABC1 = .ok ([], cacheABC1, []) ∧
    (([] : List (Nat × Nat)) ≠ [(0x44, 0x10)]) ∧ (([] : Tags) ≠ [("vendor", "X")]) :=
  ⟨by decide, by decide, by decide, by decide, rfl, by decide, by decide⟩

/-- C6 (amended): for the flag value exactly `TXR_MI_ALLOW_CACHE`, `ModuleInfo`
first issues one coalesced read of only the serial field (offset 0x44, length
0x10), and when the decoded serial validates and is a key of the cache it
returns the cached tag set unchanged with no further device reads. -/
theorem moduleInfo_allow_cache_exact (ee : Nat → Nat) (cache : Cache) (ts : Tags)
    (hv : validSerial (serialOf ee) = true)
    (hc : cache.lookup (serialOf ee) = some ts) :
    ModuleInfo (sff8472 ee) TXR_MI_ALLOW_CACHE cache = .ok (ts, cache, [(0x44, 0x10)]) := by
  obtain ⟨sn, hsn⟩ : ∃ sn, (sff8472 ee).moduleInfo TXR_MI_SERIAL =
      .ok ([("serial", sn)], [(0x44, 0x10)]) := ⟨_, rfl⟩
  have hsOf : serialOf ee = sn := by
    unfold serialOf
    rw [hsn]
    rfl
  rw [hsOf] at hv hc
  unfold ModuleInfo
  rw [if_pos rfl, hsn]
  show cacheLookupStep (sff8472 ee) TXR_MI_ALLOW_CACHE cache sn [(0x44, 0x10)] = _
  unfold cacheLookupStep
  rw [if_pos hv, hc]

/-- Witness for the amended claim 6: the fixture serial "ABC1" hits the
prepared cache entry. -/
theorem moduleInfo_allow_cache_exact_witness :
    ModuleInfo (sff8472 eeFixture) TXR_MI_ALLOW_CACHE cacheABC1 =
      .ok ([("vendor", "X")], cacheABC1, [(0x44, 0x10)]) :=
  moduleInfo_allow_cache_exact eeFixture cacheABC1 [("vendor", "X")] (by decide) (by decide)

/-- C5 counterexample: decoding the worked diagnostic bytes yields temperature
9993/256 (≈ 39.04 °C) and bias 2909/500 (= 5.818 mA); the claimed 38.66 °C is
low by more than a quarter of a degree and the claimed 5.85 mA is high by
0.032 mA, so the claimed approximations fail on the code's decoder (the claimed
voltage 3.2889 V and the power scalings are correct, see the amended theorem). -/
theorem txrDiag_sample_cex :
    diagTemp (TxrDiag log10Zero moduleDiag) = 9993/256 ∧
    3866/100 + (1/4 : ℚ) < 9993/256 ∧
    diagBias (TxrDiag log10Zero moduleDiag) = 2909/500 ∧
    2909/500 + (3/100 : ℚ) < 585/100 := by
  have h1 : diagTemp (TxrDiag log10Zero moduleDiag) = (9993 : ℚ) * txr_MULT_C := rfl
  have h2 : diagBias (TxrDiag log10Zero moduleDiag) = (2909 : ℚ) * txr_MULT_mA := rfl
  refine ⟨?_, by norm_num, ?_, by norm_num⟩
  · rw [h1]
    norm_num [txr_MULT_C]
  · rw [h2]
    norm_num [txr_MULT_mA]

/-- C5 (amended): for every interpretation `lg` of log10, decoding the bytes
27 09 80 79 0b 5d 14 ce 16 02 yields temperature exactly 9993/256 ≈ 39.04 °C,
voltage exactly 3.2889 V, bias exactly 2909/500 ≈ 5.82 mA, transmit power
0x14ce/10000 mW, receive power 0x1602/10000 mW, and both dBm fields equal to
10 times `lg` of the power in mW. -/
theorem txrDiag_sample_decode (lg : ℚ → ℚ) :
    TxrDiag lg moduleDiag =
      .ok ⟨9993/256, 32889/10000, 2909/500, 2663/5000, 2817/5000,
           lg (2663/5000) * 10, lg (2817/5000) * 10⟩ ∧
    3904/100 - (1/200 : ℚ) ≤ 9993/256 ∧ 9993/256 ≤ 3904/100 + (1/200 : ℚ) ∧
    582/100 - (1/200 : ℚ) ≤ 2909/500 ∧ 2909/500 ≤ 582/100 + (1/200 : ℚ) := by
  have h : TxrDiag lg moduleDiag =
      .ok ⟨(9993 : ℚ) * txr_MULT_C, (32889 : ℚ) * txr_MULT_V, (2909 : ℚ) * txr_MULT_mA,
           (5326 : ℚ) * txr_MULT_mW, (5634 : ℚ) * txr_MULT_mW,
           lg ((5326 : ℚ) * txr_MULT_mW) * 10, lg ((5634 : ℚ) * txr_MULT_mW) * 10⟩ := rfl
  have e3 : (5326 : ℚ) * txr_MULT_mW = 2663/5000 := by norm_num [txr_MULT_mW]
  have e4 : (5634 : ℚ) * txr_MULT_mW = 2817/5000 := by norm_num [txr_MULT_mW]
  rw [h, e3, e4]
  refine ⟨?_, by norm_num, by norm_num, by norm_num, by norm_num⟩
  simp only [Except.ok.injEq, TranscieverDiagnostics.mk.injEq]
  norm_num [txr_MULT_C, txr_MULT_V, txr_MULT_mA]

/-- Witness for the amended claim 5 at a concrete log10 interpretation. -/
theorem txrDiag_sample_decode_witness :
    TxrDiag log10Zero moduleDiag =
      .ok ⟨9993/256, 32889/10000, 2909/500, 2663/5000, 2817/5000,
           log10Zero (2663/5000) * 10, log10Zero (2817/5000) * 10⟩ :=
  (txrDiag_sample_decode log10Zero).1

/-- C10: on a supported module whose reported EEPROM length is exactly 0x160,
the diagnostic-page read takes the `offset == eeprom_len` branch and returns
the nil slice — empty, capacity 0, no error — and `TxrDiag` then evaluates
`data[0:2]`, a slice-bounds runtime panic (`GoErr.fault`): neither an error
return nor an in-bounds decode, refuting the claimed safety property at that
length.  For the strictly clamped lengths 0x161–0x169 the claim's expectation
does hold: the returned slice (here 5 bytes at length 0x165) is backed by the
512-byte `ethtoolEeprom.data` array, so the two-byte reslices are legal Go
bounded by the capacity, read zeros past the length, and `TxrDiag` returns a
diagnostics record. -/
theorem txrDiag_short_eeprom_fault :
    TxrDiag log10Zero module352 = .error .fault ∧
    module352.Read 0x160 10 = .ok ([], []) ∧
    (⟨ETH_MODULE_SFF_8472, 0x165, eeDiagFixture⟩ : EthToolModule).Read 0x160 10 =
      .ok (readBytes eeDiagFixture 0x160 5, [(0x160, 5)]) ∧
    (∃ d, TxrDiag log10Zero (⟨ETH_MODULE_SFF_8472, 0x165, eeDiagFixture⟩ : EthToolModule) =
      .ok d) :=
  ⟨rfl, rfl, rfl, ⟨_, rfl⟩⟩

/-- C8: the text written for a failed record is not a single line: the failure
format string itself ends in a newline, so the written text is the measurement
and escaped tags, the field `present=0i`, a newline, then a space, the
timestamp and the terminating newline — two newlines in total, with the
timestamp on its own line.  The claim's "one line ending in exactly one
newline" holds for the success branch but fails for the failure branch. -/
theorem influx_error_line_newline :
    influxWriteLine 1 (InfluxEmit "eth0" (some (.msg "X")) [] none) =
      "ethtool_transciever,iface=eth0,error=X present=0i\n 1\n" ∧
    (influxWriteLine 1 (InfluxEmit "eth0" (some (.msg "X")) [] none)).data.count
      (Char.ofNat 10) = 2 := by
  constructor
  · decide
  · decide

/-- C7 counterexample: on "eth0" the module opens and the tag-set fetch
succeeds, but the diagnostic read fails (reported EEPROM length 256 is below
the 0x160 diagnostic page).  The emitted record carries the error and a nil
diagnostics record, but its tag set is NOT empty — it keeps the successfully
fetched tags — contradicting the claim that a failure at any stage yields an
empty tag set. -/
theorem collect_diag_failure_cex :
    (CollectIfacesSerially log10Zero worldEth0 TXR_MI_ALLOW_CACHE ["eth0"] []).1.map
      (fun r => (r.iface, r.err.isSome, r.tags.isEmpty, r.diag.isNone)) =
      [("eth0", true, false, true)] := by
  decide

/-- Every record produced by the per-interface collection step names its
interface. -/
theorem collectOne_iface (lg : ℚ → ℚ) (world : String → Except GoErr EthToolModule)
    (flags : Nat) (c : Cache) (i : String) :
    ((collectOne lg world flags c i).1).iface = i := by
  unfold collectOne
  cases hw : world i with
  | error er => rfl
  | ok m =>
    dsimp only
    cases hM : ModuleInfo m flags c with
    | error er => rfl
    | ok p =>
      obtain ⟨t, c2, rs⟩ := p
      dsimp only
      cases hD : TxrDiag lg m with
      | error er => rfl
      | ok d => rfl

/-- A record with an error never carries a diagnostics record. -/
theorem collectOne_err_diag (lg : ℚ → ℚ) (world : String → Except GoErr EthToolModule)
    (flags : Nat) (c : Cache) (i : String) :
    ((collectOne lg world flags c i).1).err.isSome →
      ((collectOne lg world flags c i).1).diag = none := by
  unfold collectOne
  cases hw : world i with
  | error er => intro _; rfl
  | ok m =>
    dsimp only
    cases hM : ModuleInfo m flags c with
    | error er => intro _; rfl
    | ok p =>
      obtain ⟨t, c2, rs⟩ := p
      dsimp only
      cases hD : TxrDiag lg m with
      | error er => intro _; rfl
      | ok d => intro h; exact Bool.noConfusion h

/-- C7 (amended): the serial collector emits exactly one record per interface,
in list order; every failed record has a nil diagnostics record; a failure at
module open or at the tag-set fetch additionally leaves the tag set empty,
while a failure at the diagnostic read keeps the tag set fetched just before. -/
theorem collect_records_shape (lg : ℚ → ℚ) (world : String → Except GoErr EthToolModule)
    (flags : Nat) (ifaces : List String) (cache : Cache) :
    ((CollectIfacesSerially lg world flags ifaces cache).1.map (fun r => r.iface) = ifaces) ∧
    (∀ r ∈ (CollectIfacesSerially lg world flags ifaces cache).1,
      r.err.isSome → r.diag = none) ∧
    (∀ (c : Cache) (i : String) (er : GoErr), world i = .error er →
      (collectOne lg world flags c i).1 = ⟨i, some er, [], none⟩) ∧
    (∀ (c : Cache) (i : String) (m : EthToolModule) (er : GoErr), world i = .ok m →
      ModuleInfo m flags c = .error er →
      (collectOne lg world flags c i).1 = ⟨i, some er, [], none⟩) ∧
    (∀ (c : Cache) (i : String) (m : EthToolModule) (t : Tags) (c2 : Cache)
        (rs : List (Nat × Nat)) (er : GoErr), world i = .ok m →
      ModuleInfo m flags c = .ok (t, c2, rs) → TxrDiag lg m = .error er →
      (collectOne lg world flags c i).1 = ⟨i, some er, t, none⟩) := by
  refine ⟨?_, ?_, ?_, ?_, ?_⟩
  · induction ifaces generalizing cache with
    | nil => rfl
    | cons i rest ih =>
      simp only [CollectIfacesSerially]
      rcases hco : collectOne lg world flags cache i with ⟨r, c2⟩
      rcases hrec : CollectIfacesSerially lg world flags rest c2 with ⟨rs, c3⟩
      dsimp only
      simp only [List.map_cons, List.cons.injEq]
      constructor
      · have := collectOne_iface lg world flags cache i
        rw [hco] at this
        exact this
      · have := ih c2
        rw [hrec] at this
        exact this
  · induction ifaces generalizing cache with
    | nil => intro r hr; exact absurd hr (by simp [CollectIfacesSerially])
    | cons i rest ih =>
      intro r hr
      rw [show CollectIfacesSerially lg world flags (i :: rest) cache =
          ((collectOne lg world flags cache i).1 ::
            (CollectIfacesSerially lg world flags rest
              (collectOne lg world flags cache i).2).1,
           (CollectIfacesSerially lg world flags rest
              (collectOne lg world flags cache i).2).2) from rfl] at hr
      simp only [List.mem_cons] at hr
      rcases hr with rfl | hr
      · exact collectOne_err_diag lg world flags cache i
      · exact ih (collectOne lg world flags cache i).2 r hr
  · intro c i er hw
    unfold collectOne
    rw [hw]
  · intro c i m er hw hM
    unfold collectOne
    rw [hw]
    dsimp only
    rw [hM]
  · intro c i m t c2 rs er hw hM hD
    unfold collectOne
    rw [hw]
    dsimp only
    rw [hM]
    dsimp only
    rw [hD]

/-- Witness for the amended claim 7: a two-interface world where one interface
fails to open. -/
theorem collect_records_shape_witness :
    ((CollectIfacesSerially log10Zero worldEth0 TXR_MI_ALLOW_CACHE ["eth0", "nope"] []).1.map
      (fun r => r.iface) = ["eth0", "nope"]) ∧
    (collectOne log10Zero worldEth0 TXR_MI_ALLOW_CACHE [] "nope").1 =
      ⟨"nope", some (.msg "no such interface"), [], none⟩ := by
  have h := collect_records_shape log10Zero worldEth0 TXR_MI_ALLOW_CACHE ["eth0", "nope"] []
  exact ⟨h.1, h.2.2.1 [] "nope" (.msg "no such interface") rfl⟩
